import Mathlib

/-!
Verification of the masuda-forever crawler core.

The definitions below are a shallow embedding of the TypeScript sources
`src/shared/scraper.ts`, `src/index.ts` and `src/cli/index.ts`:

* JavaScript strings are modelled as Lean `String`, with `jsSlice`,
  `jsStartsWith` and `jsTrim` mirroring `String.prototype.slice`,
  `startsWith` and `trim` (restricted to the ASCII whitespace the
  fixtures use).
* The SQLite table `article_urls` is modelled as a `List Row`; the
  `INSERT OR IGNORE` bulk statement of `batchInsertUrls` becomes a left
  fold that appends a row exactly when no stored row carries the same
  `url`, counting the appended rows (`rowsAffected`).
* The fetch side effect is modelled by an environment
  `String → Option Page`: `none` is a failed fetch (non-success HTTP
  status or a network error), `some` is the parsed page content.
-/

/-- Article record extracted from a listing page (`ArticleURL` in
`scraper.ts`). -/
structure ArticleURL where
  url : String
  title : String
deriving DecidableEq, Repr

/-- One row of the `article_urls` table: `(url, title, url_year,
url_monthday)` as inserted by `batchInsertUrls`. -/
structure Row where
  url : String
  title : String
  url_year : String
  url_monthday : String
deriving DecidableEq, Repr

/-- JavaScript `s.slice(a, b)` for `0 ≤ a ≤ b`: the characters with
indices `a, …, b-1`. -/
def jsSlice (s : String) (a b : Nat) : String :=
  String.mk ((s.toList.drop a).take (b - a))

/-- JavaScript `s.startsWith(pre)`. -/
def jsStartsWith (s pre : String) : Bool :=
  pre.toList.isPrefixOf s.toList

/-- JavaScript `s.trim()`, restricted to ASCII whitespace. -/
def jsTrim (s : String) : String :=
  String.mk (((s.toList.dropWhile Char.isWhitespace).reverse.dropWhile
    Char.isWhitespace).reverse)

/-- Year field computed by `batchInsertUrls` (`scraper.ts:311`):
`a.url.length >= 31 ? a.url.slice(27, 31) : ''`. -/
def urlYearOf (url : String) : String :=
  if url.length ≥ 31 then jsSlice url 27 31 else ""

/-- Month/day field computed by `batchInsertUrls` (`scraper.ts:312`):
`a.url.length >= 35 ? a.url.slice(31, 35) : ''`. -/
def urlMonthDayOf (url : String) : String :=
  if url.length ≥ 35 then jsSlice url 31 35 else ""

/-- The `article_urls` row built for one article by the bulk insert of
`batchInsertUrls`. -/
def rowOfArticle (a : ArticleURL) : Row :=
  { url := a.url, title := a.title,
    url_year := urlYearOf a.url, url_monthday := urlMonthDayOf a.url }

/-- Does the store already hold a row with this (unique) `url` key? -/
def storeHasUrl (store : List Row) (u : String) : Bool :=
  store.any (fun r => r.url = u)

/-- `batchInsertUrls` (`scraper.ts:302-322`): one
`INSERT OR IGNORE INTO article_urls (url, title, url_year, url_monthday)`
statement over all articles.  SQLite processes the `VALUES` rows left to
right, silently ignoring any row whose `url` conflicts with an existing
row (including one inserted earlier in the same statement) and reports
the number of inserted rows as `rowsAffected`. -/
def batchInsertUrls (store : List Row) :
    List ArticleURL → List Row × Nat
  | [] => (store, 0)
  | a :: as =>
    if storeHasUrl store a.url then batchInsertUrls store as
    else
      let r := batchInsertUrls (store ++ [rowOfArticle a]) as
      (r.1, r.2 + 1)

theorem storeHasUrl_append (s t : List Row) (u : String) :
    storeHasUrl (s ++ t) u = (storeHasUrl s u || storeHasUrl t u) := by
  simp [storeHasUrl]

/-- When every article's url is already present, the bulk insert is a
no-op reporting zero affected rows. -/
theorem batchInsertUrls_all_present (as : List ArticleURL) (s : List Row)
    (h : ∀ a ∈ as, storeHasUrl s a.url = true) :
    batchInsertUrls s as = (s, 0) := by
  induction as with
  | nil => rfl
  | cons a as ih =>
    simp only [batchInsertUrls, h a (by simp), if_true]
    exact ih fun b hb => h b (by simp [hb])

/-- When the articles carry pairwise distinct urls, none of which is in
the store, the bulk insert appends exactly one row per article, in
order. -/
theorem batchInsertUrls_all_absent (as : List ArticleURL) (s : List Row)
    (hnd : (as.map (fun a => a.url)).Nodup)
    (h : ∀ a ∈ as, storeHasUrl s a.url = false) :
    batchInsertUrls s as = (s ++ as.map rowOfArticle, as.length) := by
  induction as generalizing s with
  | nil => simp [batchInsertUrls]
  | cons a as ih =>
    simp only [List.map_cons, List.nodup_cons, List.mem_map] at hnd
    have ha : storeHasUrl s a.url = false := h a (by simp)
    simp only [batchInsertUrls, ha, Bool.false_eq_true, if_false]
    have h' : ∀ b ∈ as, storeHasUrl (s ++ [rowOfArticle a]) b.url = false := by
      intro b hb
      rw [storeHasUrl_append]
      have hb1 : storeHasUrl s b.url = false := h b (by simp [hb])
      have hb2 : storeHasUrl [rowOfArticle a] b.url = false := by
        simp only [storeHasUrl, List.any_cons, List.any_nil, Bool.or_false,
          decide_eq_false_iff_not, rowOfArticle]
        intro hcontra
        exact hnd.1 ⟨b, hb, hcontra.symm⟩
      simp [hb1, hb2]
    rw [ih (s ++ [rowOfArticle a]) hnd.2 h']
    simp

/-- C1: for a record whose url is `https://anond.hatelabo.jp/` followed
by a 14-digit timestamp, `batchInsertUrls` does NOT persist the
timestamp's `YYYY` and `MMDD` characters.  The prefix
`https://anond.hatelabo.jp/` is 26 characters long, so the 0-based
JavaScript `slice(27, 31)` / `slice(31, 35)` starts one character past
the year: the URL embedding `20090101000000` is stored with
`url_year = "0090"` and `url_monthday = "1010"`, while the SQL
`substr(url, 27, 4)` (1-based) used by the migration script and the
root redirect query yields `"2009"`.  The code contradicts its own
comment (`位置27から4文字が年（YYYY）`). -/
theorem batchInsertUrls_persists_shifted_year_monthday :
    (batchInsertUrls []
        [{ url := "https://anond.hatelabo.jp/20090101000000",
           title := "t" }]).1 =
      [{ url := "https://anond.hatelabo.jp/20090101000000", title := "t",
         url_year := "0090", url_monthday := "1010" }]
    ∧ urlYearOf "https://anond.hatelabo.jp/20090101000000" ≠ "2009"
    ∧ urlMonthDayOf "https://anond.hatelabo.jp/20090101000000" ≠ "0101" := by
  exact ⟨rfl, by decide, by decide⟩

/-- C2 (amended with pairwise-distinct urls): inserting a batch of
records with pairwise-distinct urls, none of which is stored, reports
`N` affected rows and appends one row per record; repeating the same
batch reports `0` and leaves the store — hence the stored set of urls —
completely unchanged (silently ignored, never an error, never an
overwrite). -/
theorem batchInsertUrls_insert_twice (store : List Row)
    (articles : List ArticleURL)
    (hnd : (articles.map (fun a => a.url)).Nodup)
    (habs : ∀ a ∈ articles, storeHasUrl store a.url = false) :
    (batchInsertUrls store articles).2 = articles.length
    ∧ (batchInsertUrls store articles).1 =
        store ++ articles.map rowOfArticle
    ∧ batchInsertUrls (batchInsertUrls store articles).1 articles =
        ((batchInsertUrls store articles).1, 0) := by
  have h1 := batchInsertUrls_all_absent articles store hnd habs
  refine ⟨by rw [h1], by rw [h1], ?_⟩
  apply batchInsertUrls_all_present
  intro a ha
  rw [h1]
  simp only [storeHasUrl_append]
  have hm : storeHasUrl (articles.map rowOfArticle) a.url = true := by
    simp only [storeHasUrl, List.any_eq_true]
    exact ⟨rowOfArticle a, List.mem_map_of_mem _ ha, by simp [rowOfArticle]⟩
  simp [hm]

/-- C2 witness: a concrete two-record batch, inserted twice. -/
theorem batchInsertUrls_insert_twice_witness :
    (batchInsertUrls []
        [{ url := "https://anond.hatelabo.jp/20090101000000", title := "A" },
         { url := "https://anond.hatelabo.jp/20090101000100",
           title := "B" }]).2 = 2
    ∧ (batchInsertUrls
          (batchInsertUrls []
            [{ url := "https://anond.hatelabo.jp/20090101000000",
               title := "A" },
             { url := "https://anond.hatelabo.jp/20090101000100",
               title := "B" }]).1
          [{ url := "https://anond.hatelabo.jp/20090101000000",
             title := "A" },
           { url := "https://anond.hatelabo.jp/20090101000100",
             title := "B" }]).2 = 0 := by
  have h := batchInsertUrls_insert_twice []
    [{ url := "https://anond.hatelabo.jp/20090101000000", title := "A" },
     { url := "https://anond.hatelabo.jp/20090101000100", title := "B" }]
    (by decide) (by decide)
  exact ⟨h.1, by rw [h.2.2]⟩

/-- C2 counterexample: the claim as stated fails when the batch repeats
a url internally — both records are absent from the store, yet the bulk
insert reports 1 affected row, not `N = 2` (the second `VALUES` row
conflicts with the first inside the same statement). -/
theorem batchInsertUrls_dup_in_batch_counterexample :
    (∀ a ∈ ([{ url := "https://anond.hatelabo.jp/20090101000000",
               title := "A" },
             { url := "https://anond.hatelabo.jp/20090101000000",
               title := "B" }] : List ArticleURL),
        storeHasUrl [] a.url = false)
    ∧ (batchInsertUrls []
          [{ url := "https://anond.hatelabo.jp/20090101000000",
             title := "A" },
           { url := "https://anond.hatelabo.jp/20090101000000",
             title := "B" }]).2 ≠ 2 := by
  decide

/-- One `div.section` container of a listing page, as seen by the
cheerio traversal (`scraper.ts:203-212` / `index.ts:602-611`): `href`
is the first `h3 a` anchor's `href` attribute (`none` when the
container holds no such anchor or the anchor has no `href`), `text` is
the concatenated anchor text. -/
structure SectionElem where
  href : Option String
  text : String
deriving DecidableEq, Repr

/-- Permalink absolutization (`scraper.ts:209`):
`url.startsWith('http') ? url : 'https://anond.hatelabo.jp' + url`. -/
def absolutize (u : String) : String :=
  if jsStartsWith u "http" then u else "https://anond.hatelabo.jp" ++ u

/-- Title extraction (`scraper.ts:206`):
`linkElement.text().trim() || '■'` — the empty string is the only falsy
trimmed text, so it falls back to the sentinel. -/
def sectionTitle (t : String) : String :=
  if jsTrim t = "" then "■" else jsTrim t

/-- Tree-based extraction of one page's articles
(`scraper.ts:202-212`): for each `div.section`, when an `href` is
present, record the absolutized url and the (fallback-protected)
title, in page order. -/
def extractArticles (sections : List SectionElem) : List ArticleURL :=
  sections.filterMap fun s =>
    s.href.map fun u => { url := absolutize u, title := sectionTitle s.text }

/-- Does an href match the capture group `(\/\d{14})` of the regex in
`extractArticlesWithRegex` exactly (the closing quote in the pattern
forces the whole attribute to be `/` + 14 digits)? -/
def isPermalinkPath (h : String) : Bool :=
  (h.toList.head? == some '/') && (h.toList.length == 15)
    && (h.toList.drop 1).all Char.isDigit

/-- `extractArticlesWithRegex` (`scraper.ts:274-285`), modelled on the
site's well-formed listing shape (the claim's domain): the pattern
`<div class="section"[^>]*>[\s\S]*?<h3>\s*<a href="(\/\d{14})"` matches
once per `div.section` whose first `h3` anchor href is `/` + 14 digits,
yielding `https://anond.hatelabo.jp` + href with the constant title
`'■'`, in page order. -/
def extractArticlesWithRegex (sections : List SectionElem) :
    List ArticleURL :=
  sections.filterMap fun s =>
    s.href.bind fun h =>
      if isPermalinkPath h then
        some { url := "https://anond.hatelabo.jp" ++ h, title := "■" }
      else none

/-- A title produced by `sectionTitle` is never the empty string. -/
theorem sectionTitle_ne_empty (t : String) : sectionTitle t ≠ "" := by
  unfold sectionTitle
  by_cases h : jsTrim t = ""
  · simp [h]
  · simp [h]

/-- C3: when every container holds an anchor with an href, the
tree-based extraction yields exactly one record per container, in page
order: the record's url is the href absolutized (`http…` kept, other
hrefs prefixed with the site origin) and its title is the trimmed
anchor text, with the sentinel `■` replacing empty trimmed text; titles
are never empty. -/
theorem extractArticles_of_sections (sections : List SectionElem)
    (h : ∀ s ∈ sections, s.href.isSome) :
    extractArticles sections =
      sections.map (fun s =>
        { url := absolutize (s.href.getD ""), title := sectionTitle s.text })
    ∧ (extractArticles sections).length = sections.length
    ∧ (∀ t, jsTrim t = "" → sectionTitle t = "■")
    ∧ (∀ t, jsTrim t ≠ "" → sectionTitle t = jsTrim t)
    ∧ ∀ r ∈ extractArticles sections, r.title ≠ "" := by
  have hmap : extractArticles sections =
      sections.map (fun s =>
        { url := absolutize (s.href.getD ""),
          title := sectionTitle s.text }) := by
    induction sections with
    | nil => rfl
    | cons s ss ih =>
      have hs : s.href.isSome := h s (by simp)
      obtain ⟨u, hu⟩ := Option.isSome_iff_exists.mp hs
      simp only [extractArticles, List.filterMap_cons, hu, Option.map_some,
        List.map_cons, Option.getD_some]
      exact congrArg _ (ih fun x hx => h x (by simp [hx]))
  refine ⟨hmap, by rw [hmap]; simp, ?_, ?_, ?_⟩
  · intro t ht; simp [sectionTitle, ht]
  · intro t ht; simp [sectionTitle, ht]
  · intro r hr
    rw [hmap] at hr
    obtain ⟨s, _, rfl⟩ := List.mem_map.mp hr
    exact sectionTitle_ne_empty s.text

/-- C3 witness: two containers, the second with whitespace-only anchor
text; extraction yields two records with the sentinel title for the
second. -/
theorem extractArticles_of_sections_witness :
    extractArticles
        [{ href := some "/20090101000000", text := "A" },
         { href := some "/20090101000100", text := " " }] =
      [{ url := "https://anond.hatelabo.jp/20090101000000", title := "A" },
       { url := "https://anond.hatelabo.jp/20090101000100",
         title := "■" }] := by
  have h := extractArticles_of_sections
    [{ href := some "/20090101000000", text := "A" },
     { href := some "/20090101000100", text := " " }] (by decide)
  rw [h.1]
  decide

/-- A permalink path starts with `/`, so it is not kept verbatim by the
`startsWith('http')` test. -/
theorem isPermalinkPath_not_http (h : String)
    (hp : isPermalinkPath h = true) : jsStartsWith h "http" = false := by
  rw [Bool.eq_false_iff]
  intro htrue
  have hpre : "http".toList <+: h.toList :=
    List.isPrefixOf_iff_prefix.mp htrue
  obtain ⟨t, ht⟩ := hpre
  have h4 : "http".toList = ['h', 't', 't', 'p'] := by decide
  rw [h4] at ht
  have hh : h.toList.head? = some 'h' := by rw [← ht]; rfl
  rw [isPermalinkPath] at hp
  simp only [Bool.and_eq_true, beq_iff_eq] at hp
  rw [hh] at hp
  simp at hp

/-- C4 (amended): on the site's well-formed listing shape — every
container's first `h3` anchor href is `/` + 14 digits — the pattern
extractor and the tree extractor agree on the ordered sequence of urls,
but not on full records: the pattern extractor always emits the
sentinel title `■`, while the tree extractor uses the trimmed anchor
text. -/
theorem extractArticlesWithRegex_urls_agree (sections : List SectionElem)
    (hwf : ∀ s ∈ sections,
      ∃ h, s.href = some h ∧ isPermalinkPath h = true) :
    (extractArticles sections).map (fun r => r.url) =
      (extractArticlesWithRegex sections).map (fun r => r.url) := by
  induction sections with
  | nil => rfl
  | cons s ss ih =>
    obtain ⟨hs, hhref, hperm⟩ := hwf s (by simp)
    have habs : absolutize hs = "https://anond.hatelabo.jp" ++ hs := by
      rw [absolutize, isPermalinkPath_not_http hs hperm]
      simp
    simp only [extractArticles, extractArticlesWithRegex,
      List.filterMap_cons, hhref, Option.map_some', Option.some_bind, hperm,
      if_true, List.map_cons, habs]
    exact congrArg _ (ih fun x hx => hwf x (by simp [hx]))

/-- C4 witness: one well-formed container; both extractors yield the
same url sequence. -/
theorem extractArticlesWithRegex_urls_agree_witness :
    (extractArticles [{ href := some "/20090101000000", text := "A" }]).map
        (fun r => r.url) =
      (extractArticlesWithRegex
          [{ href := some "/20090101000000", text := "A" }]).map
        (fun r => r.url) :=
  extractArticlesWithRegex_urls_agree _ (by
    intro s hs
    rw [List.mem_singleton] at hs
    subst hs
    exact ⟨"/20090101000000", rfl, by decide⟩)

/-- C4 counterexample: a well-formed container with anchor text `A`
yields different records from the two extractors — the pattern
extractor discards titles and uses the sentinel. -/
theorem extractArticlesWithRegex_records_differ :
    isPermalinkPath "/20090101000000" = true
    ∧ extractArticles [{ href := some "/20090101000000", text := "A" }] ≠
        extractArticlesWithRegex
          [{ href := some "/20090101000000", text := "A" }] := by
  decide

/-- Parsed content of one successfully fetched listing page: the
extracted articles and the raw href of the pager's next link
(`$('.pager-l a')…attr('href')`), when present. -/
structure Page where
  articles : List ArticleURL
  nextPageLink : Option String
deriving DecidableEq, Repr

/-- Fetch environment: `none` models a failed fetch (non-success HTTP
status, which the source turns into a thrown error, or a network
error), `some` a successful fetch of the parsed page. -/
abbrev FetchEnv : Type := String → Option Page

/-- The `maxPages` argument of `scrapeAnondUrlsRecursive` as a
JavaScript value: `undefined` (parameter omitted), `NaN` (from
`Number.parseInt` on an unparsable CLI option), or a number. -/
inductive MaxPages where
  | undefined
  | nan
  | num (n : Nat)
deriving DecidableEq, Repr

/-- The loop-guard conjunct `(!maxPages || pagesProcessed < maxPages)`
(`scraper.ts:186`, `index.ts:589`): `undefined`, `NaN` and `0` are all
falsy, so `!maxPages` short-circuits the guard to true; only a nonzero
number caps the page count. -/
def budgetAllows : MaxPages → Nat → Bool
  | .undefined, _ => true
  | .nan, _ => true
  | .num m, p => if m = 0 then true else decide (p < m)

/-- The accumulated crawl result (`ScrapeResult` in `scraper.ts`). -/
structure ScrapeResult where
  newUrls : List ArticleURL
  existingUrlsCount : Nat
  pagesScraped : Nat
deriving DecidableEq, Repr

/-- The next value of `currentUrl` after one iteration
(`scraper.ts:244-248`): the absolutized pager link, or `''` (which
terminates the loop) when the page has no next link. -/
def nextUrlFrom : Option String → String
  | some l => absolutize l
  | none => ""

/-- The body of one successful loop iteration (`scraper.ts:219-230`):
bulk-insert the page's articles, append the first `insertedCount`
articles to `newUrls`, add the conflict count to `existingUrlsCount`,
and bump `pagesScraped`. -/
def stepPage (st : ScrapeResult × List Row) (page : Page) :
    ScrapeResult × List Row :=
  let r := batchInsertUrls st.2 page.articles
  ({ newUrls := st.1.newUrls ++ page.articles.take r.2,
     existingUrlsCount :=
       st.1.existingUrlsCount + (page.articles.length - r.2),
     pagesScraped := st.1.pagesScraped + 1 },
   r.1)

/-- The `while` loop of `scrapeAnondUrlsRecursive`
(`scraper.ts:186-258`).  `fuel` counts the iterations still permitted
by the 5-minute wall-clock deadline: when it reaches zero the deadline
check breaks out of the loop.  A failed fetch is caught
(`scraper.ts:251-257`) and breaks out of the loop, returning the
result accumulated so far (the worker's own copy in `index.ts:573-665`
instead lets the thrown error propagate, so it stops at the same page
but surfaces the error). -/
def crawlLoop (env : FetchEnv) (fuel : Nat) (maxPages : MaxPages)
    (pagesProcessed : Nat) (currentUrl : String)
    (store : List Row) (acc : ScrapeResult) : ScrapeResult × List Row :=
  if currentUrl = "" ∨ budgetAllows maxPages pagesProcessed = false then
    (acc, store)
  else
    match fuel with
    | 0 => (acc, store)
    | Nat.succ fuel' =>
      match env currentUrl with
      | none => (acc, store)
      | some page =>
        let st := stepPage (acc, store) page
        crawlLoop env fuel' maxPages (pagesProcessed + 1)
          (nextUrlFrom page.nextPageLink) st.2 st.1

/-- `scrapeAnondUrlsRecursive` (`scraper.ts:174-268`): run the loop
from the start url with zeroed accumulators. -/
def scrapeAnondUrlsRecursive (env : FetchEnv) (fuel : Nat)
    (pageUrl : String) (maxPages : MaxPages) (store : List Row) :
    ScrapeResult × List Row :=
  crawlLoop env fuel maxPages 0 pageUrl store
    { newUrls := [], existingUrlsCount := 0, pagesScraped := 0 }

/-- Result of the single-page light crawl (`LightScrapeResult` in
`scraper.ts`). -/
structure LightScrapeResult where
  articles : List ArticleURL
  nextPageUrl : Option String
  insertedCount : Nat
deriving DecidableEq, Repr

/-- `scrapeSinglePageLight` (`scraper.ts:330-359`): fetch exactly one
page; a failed fetch throws (`スクレイピング失敗`) with no surrounding
catch, modelled as `Except.error`; on success the page's articles are
bulk-inserted and the absolutized next-page cursor is returned to the
caller instead of being followed. -/
def scrapeSinglePageLight (env : FetchEnv) (store : List Row)
    (pageUrl : String) :
    Except String (LightScrapeResult × List Row) :=
  match env pageUrl with
  | none => .error "スクレイピング失敗"
  | some page =>
    let r := batchInsertUrls store page.articles
    .ok ({ articles := page.articles,
           nextPageUrl := page.nextPageLink.map absolutize,
           insertedCount := r.2 },
         r.1)

/-- Fold of `stepPage` over a list of already-fetched pages: what the
loop accumulates over a run of successful iterations. -/
def runPages (st : ScrapeResult × List Row) (pages : List Page) :
    ScrapeResult × List Row :=
  pages.foldl stepPage st

theorem stepPage_pagesScraped (st : ScrapeResult × List Row) (p : Page) :
    (stepPage st p).1.pagesScraped = st.1.pagesScraped + 1 := rfl

/-- Number of loop iterations performed on a successful chain of `n`
remaining pages when `pagesProcessed` starts at `j`: all `n` under a
falsy budget, otherwise capped by the remaining budget. -/
def itersFrom (mp : MaxPages) (j n : Nat) : Nat :=
  match mp with
  | .undefined => n
  | .nan => n
  | .num m => if m = 0 then n else min n (m - j)

/-- On a synthetic chain whose pages all fetch successfully and whose
links thread `url 0 → url 1 → …` until `url n = ""`, the loop performs
exactly `itersFrom` iterations, each bumping `pagesScraped` once. -/
theorem crawlLoop_chain_count (n : Nat) :
    ∀ (env : FetchEnv) (url : Nat → String) (pg : Nat → Page)
      (mp : MaxPages) (j fuel : Nat) (store : List Row)
      (acc : ScrapeResult),
      (∀ i < n, url i ≠ "") → url n = "" →
      (∀ i < n, env (url i) = some (pg i)) →
      (∀ i < n, nextUrlFrom (pg i).nextPageLink = url (i + 1)) →
      n ≤ fuel →
      (crawlLoop env fuel mp j (url 0) store acc).1.pagesScraped =
        acc.pagesScraped + itersFrom mp j n := by
  induction n with
  | zero =>
    intro env url pg mp j fuel store acc hne hend henv hnext hfuel
    rw [crawlLoop.eq_def]
    simp only [hend, true_or, if_true]
    cases mp with
    | undefined => simp [itersFrom]
    | nan => simp [itersFrom]
    | num m => simp only [itersFrom]; split <;> omega
  | succ n ih =>
    intro env url pg mp j fuel store acc hne hend henv hnext hfuel
    have h0 : url 0 ≠ "" := hne 0 (Nat.succ_pos n)
    by_cases hb : budgetAllows mp j = true
    · cases fuel with
      | zero => omega
      | succ f =>
        rw [crawlLoop.eq_def]
        simp only [h0, hb, Bool.true_eq_false, or_self, if_false,
          henv 0 (Nat.succ_pos n), hnext 0 (Nat.succ_pos n)]
        have hrec :
            (crawlLoop env f mp (j + 1) (url 1)
                (stepPage (acc, store) (pg 0)).2
                (stepPage (acc, store) (pg 0)).1).1.pagesScraped =
              (stepPage (acc, store) (pg 0)).1.pagesScraped +
                itersFrom mp (j + 1) n :=
          ih env (fun i => url (i + 1)) (fun i => pg (i + 1)) mp (j + 1) f
            (stepPage (acc, store) (pg 0)).2
            (stepPage (acc, store) (pg 0)).1
            (fun i hi => hne (i + 1) (by omega)) hend
            (fun i hi => henv (i + 1) (by omega))
            (fun i hi => hnext (i + 1) (by omega)) (by omega)
        rw [hrec, stepPage_pagesScraped]
        cases mp with
        | undefined => simp [itersFrom]; omega
        | nan => simp [itersFrom]; omega
        | num m =>
          simp only [budgetAllows] at hb
          simp only [itersFrom]
          split at hb
          · simp_all
            omega
          · simp only [decide_eq_true_eq] at hb
            split <;> omega
    · rw [crawlLoop.eq_def]
      rw [Bool.not_eq_true] at hb
      simp only [hb, or_true, if_true]
      cases mp with
      | undefined => simp [budgetAllows] at hb
      | nan => simp [budgetAllows] at hb
      | num m =>
        simp only [budgetAllows] at hb
        split at hb
        · simp at hb
        · simp only [decide_eq_false_iff_not, Nat.not_lt] at hb
          simp only [itersFrom]
          split <;> omega

/-- C5: on a chain whose first `f` pages fetch successfully and whose
page `f` fails to fetch (non-success status or network error), the
crawl loop of the shared scraper stops at the failing page — it does
not skip it and continue — and returns exactly the result accumulated
from the `f` previously successful pages.  (The worker's copy in
`index.ts` stops at the same page but propagates the thrown error
instead of returning.) -/
theorem crawl_stops_at_failing_page (f : Nat) :
    ∀ (env : FetchEnv) (url : Nat → String) (pg : Nat → Page)
      (j fuel : Nat) (store : List Row) (acc : ScrapeResult),
      (∀ i ≤ f, url i ≠ "") →
      (∀ i < f, env (url i) = some (pg i)) →
      env (url f) = none →
      (∀ i < f, nextUrlFrom (pg i).nextPageLink = url (i + 1)) →
      f < fuel →
      crawlLoop env fuel .undefined j (url 0) store acc =
        runPages (acc, store) ((List.range f).map pg) := by
  induction f with
  | zero =>
    intro env url pg j fuel store acc hne henv hfail hnext hfuel
    cases fuel with
    | zero => omega
    | succ fuel' =>
      rw [crawlLoop.eq_def]
      simp only [hne 0 (Nat.le_refl 0), budgetAllows, Bool.true_eq_false,
        or_self, if_false, hfail]
      simp [runPages]
  | succ f ih =>
    intro env url pg j fuel store acc hne henv hfail hnext hfuel
    cases fuel with
    | zero => omega
    | succ fuel' =>
      rw [crawlLoop.eq_def]
      simp only [hne 0 (by omega), budgetAllows, Bool.true_eq_false,
        or_self, if_false, henv 0 (Nat.succ_pos f),
        hnext 0 (Nat.succ_pos f)]
      have hrec :
          crawlLoop env fuel' .undefined (j + 1) (url 1)
              (stepPage (acc, store) (pg 0)).2
              (stepPage (acc, store) (pg 0)).1 =
            runPages (stepPage (acc, store) (pg 0))
              ((List.range f).map (fun i => pg (i + 1))) :=
        ih env (fun i => url (i + 1)) (fun i => pg (i + 1)) (j + 1) fuel'
          (stepPage (acc, store) (pg 0)).2 (stepPage (acc, store) (pg 0)).1
          (fun i hi => hne (i + 1) (by omega))
          (fun i hi => henv (i + 1) (by omega)) hfail
          (fun i hi => hnext (i + 1) (by omega)) (by omega)
      rw [hrec, List.range_succ_eq_map, List.map_cons, List.map_map]
      rfl

/-- C5 witness: one successful page followed by a failing fetch; the
crawl returns the accumulation over the single successful page. -/
theorem crawl_stops_at_failing_page_witness :
    crawlLoop
        (fun u => if u = "https://anond.hatelabo.jp/" then
            some { articles :=
                     [{ url := "https://anond.hatelabo.jp/20090101000000",
                        title := "A" }],
                   nextPageLink := some "/?page=2" }
          else none)
        5 .undefined 0 "https://anond.hatelabo.jp/" []
        { newUrls := [], existingUrlsCount := 0, pagesScraped := 0 } =
      runPages
        ({ newUrls := [], existingUrlsCount := 0, pagesScraped := 0 }, [])
        ((List.range 1).map (fun _ =>
          { articles := [{ url := "https://anond.hatelabo.jp/20090101000000",
                           title := "A" }],
            nextPageLink := some "/?page=2" })) :=
  crawl_stops_at_failing_page 1
    (fun u => if u = "https://anond.hatelabo.jp/" then
        some { articles :=
                 [{ url := "https://anond.hatelabo.jp/20090101000000",
                    title := "A" }],
               nextPageLink := some "/?page=2" }
      else none)
    (fun i => if i = 0 then "https://anond.hatelabo.jp/"
      else "https://anond.hatelabo.jp/?page=2")
    (fun _ =>
      { articles := [{ url := "https://anond.hatelabo.jp/20090101000000",
                       title := "A" }],
        nextPageLink := some "/?page=2" })
    0 5 [] { newUrls := [], existingUrlsCount := 0, pagesScraped := 0 }
    (by decide) (by decide) (by decide) (by decide) (by omega)

/-- C6 counterexample: a crawl whose very first fetch fails returns
`{newUrls: [], existingUrlsCount: 0, pagesScraped: 0}` as a normal
result — the catch in `scraper.ts:251-257` converts the fetch failure
into a zero-results success instead of raising it. -/
theorem crawlLoop_swallows_first_fetch_failure :
    crawlLoop (fun _ => none) 5 .undefined 0 "https://anond.hatelabo.jp/"
        [] { newUrls := [], existingUrlsCount := 0, pagesScraped := 0 } =
      ({ newUrls := [], existingUrlsCount := 0, pagesScraped := 0 }, []) := by
  rfl

/-- C6 (amended): the single-page light crawl raises a fetch failure to
its caller; the recursive crawl loop of the shared scraper instead
catches it and returns the accumulated result, so a crawl whose very
first fetch fails does return the zero result as a normal value. -/
theorem scrapeSinglePageLight_raises_on_fetch_failure (env : FetchEnv)
    (store : List Row) (pageUrl : String) (hfail : env pageUrl = none) :
    scrapeSinglePageLight env store pageUrl =
      .error "スクレイピング失敗" := by
  simp [scrapeSinglePageLight, hfail]

/-- C6 witness: a concrete failing fetch makes the light crawl raise. -/
theorem scrapeSinglePageLight_raises_witness :
    scrapeSinglePageLight (fun _ => none) [] "https://anond.hatelabo.jp/" =
      .error "スクレイピング失敗" :=
  scrapeSinglePageLight_raises_on_fetch_failure (fun _ => none) []
    "https://anond.hatelabo.jp/" rfl

/-- C7: on a synthetic chain of `L` pages whose fetches all succeed and
where only the last page lacks a next-page pager link, and with enough
fuel that the wall-clock deadline is not the binding constraint, the
crawl performs exactly `L` fetches with no page budget and exactly `b`
fetches with a page budget `1 ≤ b < L` (each successful fetch bumps
`pagesScraped` by one). -/
theorem crawl_chain_fetch_counts (L : Nat) (env : FetchEnv)
    (url : Nat → String) (pg : Nat → Page) (fuel : Nat) (store : List Row)
    (hL : 0 < L)
    (hne : ∀ i < L, url i ≠ "")
    (henv : ∀ i < L, env (url i) = some (pg i))
    (hnext : ∀ i, i + 1 < L → nextUrlFrom (pg i).nextPageLink = url (i + 1))
    (hlast : (pg (L - 1)).nextPageLink = none)
    (hfuel : L ≤ fuel) :
    (scrapeAnondUrlsRecursive env fuel (url 0) .undefined
        store).1.pagesScraped = L
    ∧ ∀ b, 1 ≤ b → b < L →
        (scrapeAnondUrlsRecursive env fuel (url 0) (.num b)
            store).1.pagesScraped = b := by
  have hu0 : (fun i => if i = L then "" else url i) 0 = url 0 := by
    simp only [if_neg (by omega : ¬(0 = L))]
  have key : ∀ mp : MaxPages,
      (crawlLoop env fuel mp 0 (url 0) store
          { newUrls := [], existingUrlsCount := 0,
            pagesScraped := 0 }).1.pagesScraped = itersFrom mp 0 L := by
    intro mp
    have h := crawlLoop_chain_count L env
      (fun i => if i = L then "" else url i) pg mp 0 fuel store
      { newUrls := [], existingUrlsCount := 0, pagesScraped := 0 }
      (fun i hi => by simpa only [if_neg (by omega : ¬(i = L))] using hne i hi)
      (by simp)
      (fun i hi => by
        simpa only [if_neg (by omega : ¬(i = L))] using henv i hi)
      (fun i hi => by
        by_cases hiL : i + 1 = L
        · simp only [hiL, if_pos rfl]
          have : i = L - 1 := by omega
          rw [this, hlast]
          rfl
        · simpa only [if_neg hiL] using hnext i (by omega))
      hfuel
    rw [hu0] at h
    simpa using h
  refine ⟨?_, ?_⟩
  · have h := key .undefined
    simpa [itersFrom, scrapeAnondUrlsRecursive] using h
  · intro b hb1 hbL
    have h := key (.num b)
    rw [scrapeAnondUrlsRecursive]
    rw [h]
    simp only [itersFrom, if_neg (by omega : ¬(b = 0))]
    omega

/-- C7 witness: a concrete two-page chain, crawled without a budget
(two fetches) and with budget 1 (one fetch). -/
theorem crawl_chain_fetch_counts_witness :
    (scrapeAnondUrlsRecursive
        (fun u =>
          if u = "https://anond.hatelabo.jp/" then
            some { articles :=
                     [{ url := "https://anond.hatelabo.jp/20090101000000",
                        title := "A" }],
                   nextPageLink := some "/?page=2" }
          else if u = "https://anond.hatelabo.jp/?page=2" then
            some { articles :=
                     [{ url := "https://anond.hatelabo.jp/20090102000000",
                        title := "B" }],
                   nextPageLink := none }
          else none)
        5 "https://anond.hatelabo.jp/" .undefined []).1.pagesScraped = 2
    ∧ (scrapeAnondUrlsRecursive
        (fun u =>
          if u = "https://anond.hatelabo.jp/" then
            some { articles :=
                     [{ url := "https://anond.hatelabo.jp/20090101000000",
                        title := "A" }],
                   nextPageLink := some "/?page=2" }
          else if u = "https://anond.hatelabo.jp/?page=2" then
            some { articles :=
                     [{ url := "https://anond.hatelabo.jp/20090102000000",
                        title := "B" }],
                   nextPageLink := none }
          else none)
        5 "https://anond.hatelabo.jp/" (.num 1) []).1.pagesScraped = 1 := by
  have h := crawl_chain_fetch_counts 2
    (fun u =>
      if u = "https://anond.hatelabo.jp/" then
        some { articles :=
                 [{ url := "https://anond.hatelabo.jp/20090101000000",
                    title := "A" }],
               nextPageLink := some "/?page=2" }
      else if u = "https://anond.hatelabo.jp/?page=2" then
        some { articles :=
                 [{ url := "https://anond.hatelabo.jp/20090102000000",
                    title := "B" }],
               nextPageLink := none }
      else none)
    (fun i => if i = 0 then "https://anond.hatelabo.jp/"
      else "https://anond.hatelabo.jp/?page=2")
    (fun i =>
      if i = 0 then
        { articles := [{ url := "https://anond.hatelabo.jp/20090101000000",
                         title := "A" }],
          nextPageLink := some "/?page=2" }
      else
        { articles := [{ url := "https://anond.hatelabo.jp/20090102000000",
                         title := "B" }],
          nextPageLink := none })
    5 [] (by decide) (by decide) (by decide)
    (by intro i hi
        have : i = 0 := by omega
        subst this
        decide)
    (by decide) (by decide)
  exact ⟨h.1, h.2 1 (by decide) (by decide)⟩

/-- C10: a falsy page budget — `0`, or `NaN` from an unparsable CLI
`--max-pages` option — does not mean "fetch zero pages": the guard
`!maxPages || pagesProcessed < maxPages` treats it exactly like an
absent budget, so the crawl behaves identically to the unbounded one in
every state (running until pagination ends, a fetch fails, or the fuel
deadline is hit). -/
theorem crawlLoop_falsy_budget_unbounded (env : FetchEnv) (fuel : Nat) :
    ∀ (j : Nat) (u : String) (store : List Row) (acc : ScrapeResult),
      crawlLoop env fuel (.num 0) j u store acc =
        crawlLoop env fuel .undefined j u store acc
      ∧ crawlLoop env fuel .nan j u store acc =
        crawlLoop env fuel .undefined j u store acc := by
  induction fuel with
  | zero =>
    intro j u store acc
    refine ⟨?_, ?_⟩ <;>
      · rw [crawlLoop.eq_def]
        conv_rhs => rw [crawlLoop.eq_def]
        simp [budgetAllows]
  | succ f ih =>
    intro j u store acc
    refine ⟨?_, ?_⟩
    · rw [crawlLoop.eq_def]
      conv_rhs => rw [crawlLoop.eq_def]
      by_cases hu : u = ""
      · simp [hu]
      · cases henv : env u with
        | none => simp [hu, henv, budgetAllows]
        | some page =>
          simpa [hu, henv, budgetAllows] using
            (ih (j + 1) (nextUrlFrom page.nextPageLink)
              (stepPage (acc, store) page).2
              (stepPage (acc, store) page).1).1
    · rw [crawlLoop.eq_def]
      conv_rhs => rw [crawlLoop.eq_def]
      by_cases hu : u = ""
      · simp [hu]
      · cases henv : env u with
        | none => simp [hu, henv, budgetAllows]
        | some page =>
          simpa [hu, henv, budgetAllows] using
            (ih (j + 1) (nextUrlFrom page.nextPageLink)
              (stepPage (acc, store) page).2
              (stepPage (acc, store) page).1).2


/-- `isLeapYear`: the Gregorian leap-year rule implemented by the
JavaScript `Date` object, used through `new Date(year, month, 0)`. -/

def isLeapYear (year : Nat) : Bool :=
  year % 4 = 0 && (year % 100 != 0 || year % 400 = 0)

/-- `new Date(year, month, 0).getDate()` for a calendar month `1-12`
(`cli/index.ts:193`): day 0 of the 0-based month index `month` is the
last day of calendar month `month`, i.e. its number of days. -/
def daysInMonth (year month : Nat) : Nat :=
  if month = 2 then (if isLeapYear year then 29 else 28)
  else if month = 4 ∨ month = 6 ∨ month = 9 ∨ month = 11 then 30
  else 31

/-- A calendar date, the key of one `scrape_progress` row (rendered as
a `YYYYMMDD` string by the source). -/
structure PDate where
  year : Nat
  month : Nat
  day : Nat
deriving DecidableEq, Repr

/-- The dates pushed for one `year` by the loops of
`initProgressAllDates` (`cli/index.ts:187-201`): months run from
`startMonth` (September for 2006, January otherwise) to December, days
from `firstDay` (the 24th for 2006's first month, the 1st otherwise) to
the month's last day. -/
def seedDatesOfYear (year : Nat) : List PDate :=
  let startMonth := if year = 2006 then 9 else 1
  (List.range' startMonth (13 - startMonth)).flatMap fun month =>
    let firstDay := if month = startMonth ∧ year = 2006 then 24 else 1
    (List.range' firstDay (daysInMonth year month + 1 - firstDay)).map
      fun day => { year := year, month := month, day := day }

/-- A date is seeded for year `y` iff it is a calendar date of `y`,
restricted for 2006 to September 24 onward. -/
theorem mem_seedDatesOfYear (y : Nat) (d : PDate) :
    d ∈ seedDatesOfYear y ↔
      d.year = y ∧ 1 ≤ d.month ∧ d.month ≤ 12 ∧ 1 ≤ d.day ∧
        d.day ≤ daysInMonth y d.month ∧
        (y = 2006 → 9 < d.month ∨ (d.month = 9 ∧ 24 ≤ d.day)) := by
  obtain ⟨dy, dm, dd⟩ := d
  simp only [seedDatesOfYear, List.mem_flatMap, List.mem_range'_1,
    List.mem_map, PDate.mk.injEq]
  by_cases hy : y = 2006
  · subst hy
    norm_num
    constructor
    · rintro ⟨m, hm, day, hday, rfl, rfl, rfl⟩
      by_cases hm9 : m = 9
      · subst hm9
        norm_num at hday
        omega
      · simp only [hm9, false_and, if_false, Bool.false_eq_true] at hday
        omega
    · rintro ⟨rfl, h1, h2, h3, h4, h5⟩
      refine ⟨dm, by omega, dd, ?_, ⟨rfl, rfl, rfl⟩⟩
      by_cases hm9 : dm = 9
      · subst hm9
        norm_num
        omega
      · simp only [hm9, false_and, if_false]
        omega
  · simp only [hy, if_false, and_false]
    norm_num
    constructor
    · rintro ⟨m, hm, day, hday, rfl, rfl, rfl⟩
      exact ⟨rfl, by omega, by omega, by omega, by omega⟩
    · rintro ⟨rfl, h1, h2, h3, h4⟩
      refine ⟨dm, by omega, dd, by omega, ⟨rfl, rfl, rfl⟩⟩

theorem nodup_seedDatesOfYear (y : Nat) : (seedDatesOfYear y).Nodup := by
  rw [seedDatesOfYear]
  refine List.nodup_flatMap.mpr ⟨?_, ?_⟩
  · intro m hm
    refine (List.nodup_range' _ _).map ?_
    intro a b hab
    simpa using congrArg PDate.day hab
  · refine (List.pairwise_lt_range' _ _).imp ?_
    intro a b hab x hxa hxb
    simp only [List.mem_map] at hxa hxb
    obtain ⟨da, _, rfl⟩ := hxa
    obtain ⟨db, _, hxb'⟩ := hxb
    have := congrArg PDate.month hxb'
    simp at this
    omega

/-- The full date list generated by `initProgressAllDates`
(`cli/index.ts:185-201`) for the inclusive year range. -/
def initProgressDates (startYear endYear : Nat) : List PDate :=
  (List.range' startYear (endYear + 1 - startYear)).flatMap seedDatesOfYear

theorem nodup_initProgressDates (s e : Nat) :
    (initProgressDates s e).Nodup := by
  rw [initProgressDates]
  refine List.nodup_flatMap.mpr ⟨fun y _ => nodup_seedDatesOfYear y, ?_⟩
  refine (List.pairwise_lt_range' _ _).imp ?_
  intro a b hab x hxa hxb
  have ha := ((mem_seedDatesOfYear a x).mp hxa).1
  have hb := ((mem_seedDatesOfYear b x).mp hxb).1
  omega

/-- One `scrape_progress` row: its primary-key date and the remaining
payload (status defaults to `pending` on insert). -/
structure ProgressRow where
  date : PDate
  status : String
deriving DecidableEq, Repr

/-- The batched `INSERT OR IGNORE INTO scrape_progress (date)`
statements of `initProgressAllDates` (`cli/index.ts:209-220`):
processed row by row, a date already present is skipped, a new one is
appended with the default status.  (The batching by 100 does not change
the row-by-row conflict semantics.) -/
def seedProgress (store : List ProgressRow) : List PDate → List ProgressRow
  | [] => store
  | d :: ds =>
    if store.any (fun r => r.date = d) then seedProgress store ds
    else seedProgress (store ++ [{ date := d, status := "pending" }]) ds

theorem seedProgress_suffix (ds : List PDate) (store : List ProgressRow) :
    ∃ t, seedProgress store ds = store ++ t := by
  induction ds generalizing store with
  | nil => exact ⟨[], by simp [seedProgress]⟩
  | cons d ds ih =>
    rw [seedProgress]
    by_cases hp : store.any (fun r => r.date = d) = true
    · simpa [hp] using ih store
    · simp only [hp, Bool.false_eq_true, if_false]
      obtain ⟨t, ht⟩ := ih (store ++ [{ date := d, status := "pending" }])
      exact ⟨{ date := d, status := "pending" } :: t, by simp [ht]⟩

theorem seedProgress_any_mono (ds : List PDate) (store : List ProgressRow)
    (p : ProgressRow → Bool) (hp : store.any p = true) :
    (seedProgress store ds).any p = true := by
  obtain ⟨t, ht⟩ := seedProgress_suffix ds store
  rw [ht]
  simp [List.any_append, hp]

theorem seedProgress_has_seeded (ds : List PDate) (store : List ProgressRow)
    (d : PDate) (hd : d ∈ ds) :
    (seedProgress store ds).any (fun r => r.date = d) = true := by
  induction ds generalizing store with
  | nil => cases hd
  | cons d0 ds ih =>
    rw [seedProgress]
    by_cases hp : store.any (fun r => r.date = d0) = true
    · rcases List.mem_cons.mp hd with rfl | hmem
      · simp only [hp, if_true]
        exact seedProgress_any_mono ds store _ hp
      · simp only [hp, if_true]
        exact ih store hmem
    · simp only [hp, Bool.false_eq_true, if_false]
      rcases List.mem_cons.mp hd with rfl | hmem
      · refine seedProgress_any_mono ds _ _ ?_
        simp
      · exact ih _ hmem

theorem seedProgress_all_present (ds : List PDate) (store : List ProgressRow)
    (h : ∀ d ∈ ds, store.any (fun r => r.date = d) = true) :
    seedProgress store ds = store := by
  induction ds with
  | nil => rfl
  | cons d ds ih =>
    rw [seedProgress]
    simp only [h d (by simp), if_true]
    exact ih fun x hx => h x (by simp [hx])

theorem seedProgress_fresh (ds : List PDate) (store : List ProgressRow)
    (hnd : ds.Nodup)
    (h : ∀ d ∈ ds, store.any (fun r => r.date = d) = false) :
    seedProgress store ds =
      store ++ ds.map (fun d => { date := d, status := "pending" }) := by
  induction ds generalizing store with
  | nil => simp [seedProgress]
  | cons d ds ih =>
    simp only [List.nodup_cons] at hnd
    rw [seedProgress]
    simp only [h d (by simp), Bool.false_eq_true, if_false]
    have h' : ∀ x ∈ ds,
        (store ++ [({ date := d, status := "pending" } : ProgressRow)]).any
          (fun r => r.date = x) = false := by
      intro x hx
      simp only [List.any_append, List.any_cons, List.any_nil,
        Bool.or_false, Bool.or_eq_false_iff]
      refine ⟨h x (by simp [hx]), ?_⟩
      simp only [decide_eq_false_iff_not]
      intro hcontra
      exact hnd.1 (hcontra ▸ hx)
    rw [ih _ hnd.2 h']
    simp

/-- `initProgressAllDates` (`cli/index.ts:180-223`): generate the date
range and bulk-insert it with `INSERT OR IGNORE`. -/
def initProgressAllDates (store : List ProgressRow)
    (startYear endYear : Nat) : List ProgressRow :=
  seedProgress store (initProgressDates startYear endYear)

/-- C9: for an inclusive year range with `startYear ≤ endYear`, the
range-seeding operation generates exactly one progress row per calendar
date of the range — except that 2006 starts at September 24 rather than
January 1 — and skips rows whose date already exists: reseeding the
same range is idempotent and existing rows survive unchanged as a
prefix of the store. -/
theorem initProgressAllDates_calendar (store : List ProgressRow)
    (startYear endYear : Nat) (h : startYear ≤ endYear) :
    (∀ d : PDate, d ∈ initProgressDates startYear endYear ↔
      (startYear ≤ d.year ∧ d.year ≤ endYear ∧ 1 ≤ d.month ∧ d.month ≤ 12 ∧
        1 ≤ d.day ∧ d.day ≤ daysInMonth d.year d.month ∧
        (d.year = 2006 → 9 < d.month ∨ (d.month = 9 ∧ 24 ≤ d.day))))
    ∧ (initProgressDates startYear endYear).Nodup
    ∧ (initProgressAllDates [] startYear endYear).map (fun r => r.date) =
        initProgressDates startYear endYear
    ∧ initProgressAllDates (initProgressAllDates store startYear endYear)
        startYear endYear = initProgressAllDates store startYear endYear
    ∧ ∃ t, initProgressAllDates store startYear endYear = store ++ t := by
  refine ⟨?_, nodup_initProgressDates _ _, ?_, ?_, ?_⟩
  · intro d
    rw [initProgressDates, List.mem_flatMap]
    constructor
    · rintro ⟨y, hy, hd⟩
      rw [List.mem_range'_1] at hy
      obtain ⟨h1, rest⟩ := (mem_seedDatesOfYear y d).mp hd
      subst h1
      exact ⟨hy.1, by omega, rest⟩
    · rintro ⟨h1, h2, h3, h4, h5, h6, h7⟩
      refine ⟨d.year, by rw [List.mem_range'_1]; omega, ?_⟩
      rw [mem_seedDatesOfYear]
      exact ⟨rfl, h3, h4, h5, h6, h7⟩
  · rw [initProgressAllDates,
      seedProgress_fresh _ _ (nodup_initProgressDates _ _)
        (by intro x hx; simp)]
    rw [List.nil_append, List.map_map]
    exact List.map_id _
  · exact seedProgress_all_present _ _ fun d hd =>
      seedProgress_has_seeded _ _ _ hd
  · exact seedProgress_suffix _ _

/-- C9 witness: the 2006-2007 range contains September 24 2006 but not
September 23 2006, contains January 1 2007, and reseeding it is a
no-op. -/
theorem initProgressAllDates_calendar_witness :
    PDate.mk 2006 9 24 ∈ initProgressDates 2006 2007
    ∧ PDate.mk 2006 9 23 ∉ initProgressDates 2006 2007
    ∧ PDate.mk 2007 1 1 ∈ initProgressDates 2006 2007
    ∧ initProgressAllDates (initProgressAllDates [] 2006 2007) 2006 2007 =
        initProgressAllDates [] 2006 2007 := by
  have h := initProgressAllDates_calendar [] 2006 2007 (by decide)
  refine ⟨(h.1 ⟨2006, 9, 24⟩).mpr (by decide), ?_,
    (h.1 ⟨2007, 1, 1⟩).mpr (by decide), h.2.2.2.1⟩
  intro hmem
  exact absurd ((h.1 ⟨2006, 9, 23⟩).mp hmem) (by decide)

/-- `startYear` computed by the root redirect handler
(`index.ts:402`): `monthNumber > 9 || (monthNumber === 9 && dayNumber
>= 24) ? 2006 : 2007` — the site's earliest year, advanced by one when
today's month/day falls before the September 24 launch anniversary. -/
def rootStartYear (month day : Nat) : Nat :=
  if 9 < month ∨ (month = 9 ∧ 24 ≤ day) then 2006 else 2007

/-- What the root redirect handler decides before touching the store:
either respond 404 without querying (`index.ts:408-410`), or query
`article_urls` for the chosen random year and today's month/day
(`index.ts:418-424`). -/
inductive RootDecision where
  | noMatch
  | query (year : Int) (month day : Nat)
deriving DecidableEq, Repr

/-- The year-window logic of the root redirect handler
(`index.ts:392-424`).  `endYear = currentYear - 1`; when
`startYear > endYear` the handler returns 404 without querying;
otherwise `randomYear = Math.floor(Math.random() * numberOfYears) +
startYear`, where the floor of `Math.random() * n` ranges over
`0 … n-1` — modelled by the parameter `r` reduced mod
`numberOfYears`. -/
def rootRedirectDecision (currentYear month day : Nat) (r : Nat) :
    RootDecision :=
  let startYear : Int := rootStartYear month day
  let endYear : Int := (currentYear : Int) - 1
  if startYear > endYear then .noMatch
  else
    let numberOfYears := (endYear - startYear + 1).toNat
    .query (startYear + (r % numberOfYears : Nat)) month day

/-- C8: the root redirect computes `endYear = currentYear - 1` and
`startYear = 2006` on or after September 24 (else 2007); when
`startYear > endYear` it decides "no match" without querying the
store; otherwise every random draw lands inside the inclusive window
`[startYear, endYear]` and every year of the window is reached by
exactly the draw `r = y - startYear` — a uniform choice over the
window. -/
theorem rootRedirect_window (currentYear month day : Nat) :
    (rootStartYear month day =
        if 9 < month ∨ (month = 9 ∧ 24 ≤ day) then 2006 else 2007)
    ∧ ((currentYear : Int) - 1 < (rootStartYear month day : Int) →
        ∀ r, rootRedirectDecision currentYear month day r = .noMatch)
    ∧ ((rootStartYear month day : Int) ≤ (currentYear : Int) - 1 →
        (∀ r,
          r < ((currentYear : Int) - 1 -
              (rootStartYear month day : Int) + 1).toNat →
          rootRedirectDecision currentYear month day r =
              .query ((rootStartYear month day : Int) + r) month day
            ∧ (rootStartYear month day : Int) ≤
                (rootStartYear month day : Int) + r
            ∧ (rootStartYear month day : Int) + r ≤ (currentYear : Int) - 1)
        ∧ (∀ y : Int, (rootStartYear month day : Int) ≤ y →
            y ≤ (currentYear : Int) - 1 →
            ∃ r, r < ((currentYear : Int) - 1 -
                (rootStartYear month day : Int) + 1).toNat ∧
              rootRedirectDecision currentYear month day r =
                .query y month day)) := by
  refine ⟨rfl, ?_, ?_⟩
  · intro hlt r
    simp only [rootRedirectDecision]
    rw [if_pos hlt]
  · intro hle
    constructor
    · intro r hr
      simp only [rootRedirectDecision]
      rw [if_neg (not_lt.mpr hle), Nat.mod_eq_of_lt hr]
      refine ⟨rfl, by omega, by omega⟩
    · intro y hy1 hy2
      refine ⟨(y - (rootStartYear month day : Int)).toNat, by omega, ?_⟩
      simp only [rootRedirectDecision]
      rw [if_neg (not_lt.mpr hle), Nat.mod_eq_of_lt (by omega)]
      have harg : (rootStartYear month day : Int) +
          ((y - (rootStartYear month day : Int)).toNat : Int) = y := by
        omega
      rw [harg]

/-- C8 witness: in 2006 before the anniversary the window is empty and
the decision is "no match" for every draw; on 2025-09-24 the window
starts at 2006 (draw 3 picks 2009), on 2025-09-23 at 2007 (draw 3
picks 2010). -/
theorem rootRedirect_window_witness :
    (∀ r, rootRedirectDecision 2006 5 1 r = .noMatch)
    ∧ rootRedirectDecision 2025 9 24 3 = .query 2009 9 24
    ∧ rootRedirectDecision 2025 9 23 3 = .query 2010 9 23 := by
  have h1 := (rootRedirect_window 2006 5 1).2.1
  have h2 := (rootRedirect_window 2025 9 24).2.2
  have h3 := (rootRedirect_window 2025 9 23).2.2
  refine ⟨h1 (by decide), ?_, ?_⟩
  · have := ((h2 (by decide)).1 3 (by decide)).1
    simpa using this
  · have := ((h3 (by decide)).1 3 (by decide)).1
    simpa using this
